import Mathlib

/-!
Verification of the cmec-driver module registry and run-resolution engine.

This development shallowly embeds the core of `src/cmec-driver.cpp`:
the JSON document model used by the driver, the `CMECLibrary` catalog
(`Insert`, `Remove`, `find`), the `CMECModuleSettings` and `CMECModuleTOC`
readers, `cmec_register`, and the selector-resolution and
directory-creation phases of `cmec_run`.  File contents are modeled as an
association list from path strings to parsed JSON values; `std::map` is
modeled as a sorted association list whose `insert` does not overwrite an
existing key (the semantics of `std::map::insert`), while assignment via
`operator[]` is modeled by an insert-or-assign operation.
-/

set_option autoImplicit false

namespace CmecDriver

/-- Model of a parsed JSON document (nlohmann::json as used by the driver):
only strings, objects, arrays and null are needed by the embedded code. -/
inductive JValue where
  | str (s : String)
  | obj (fields : List (String × JValue))
  | arr (elems : List JValue)
  | null

/-- Lookup of a key in a JSON object's field list (first match). -/
def jlookup : List (String × JValue) → String → Option JValue
  | [], _ => none
  | (k, v) :: t, key => if key = k then some v else jlookup t key

/-- `j.find(key)` on a JSON value: only objects contain keys. -/
def JValue.get : JValue → String → Option JValue
  | .obj fields, key => jlookup fields key
  | _, _ => none

def JValue.isObj : JValue → Bool
  | .obj _ => true
  | _ => false

def JValue.isStr : JValue → Bool
  | .str _ => true
  | _ => false

def JValue.asStr : JValue → Option String
  | .str s => some s
  | _ => none

/-- Lexicographic comparison of character lists, the semantics of
`std::string::operator<` (char-wise less-than with shorter prefixes
first). -/
def listLtb : List Char → List Char → Bool
  | [], [] => false
  | [], _ :: _ => true
  | _ :: _, [] => false
  | a :: as, b :: bs =>
    if a < b then true
    else if b < a then false
    else listLtb as bs

/-- `std::string::operator<` on the embedded strings. -/
def strLtb (a b : String) : Bool := listLtb a.toList b.toList

/-- Model of `std::map<std::string, α>`: a sorted association list. -/
abbrev Smap (α : Type) : Type := List (String × α)

/-- `std::map::find`. -/
def Smap.find {α : Type} : Smap α → String → Option α
  | [], _ => none
  | (k, v) :: t, key => if key = k then some v else Smap.find t key

/-- `std::map::insert`: inserts at the sorted position; if the key is
already present the map is left unchanged (the existing entry wins). -/
def Smap.insert {α : Type} : Smap α → String → α → Smap α
  | [], key, v => [(key, v)]
  | (k, w) :: t, key, v =>
    if strLtb key k then (key, v) :: (k, w) :: t
    else if key = k then (k, w) :: t
    else (k, w) :: Smap.insert t key v

/-- `std::map::operator[]` followed by assignment: insert-or-assign. -/
def Smap.set {α : Type} : Smap α → String → α → Smap α
  | [], key, v => [(key, v)]
  | (k, w) :: t, key, v =>
    if strLtb key k then (key, v) :: (k, w) :: t
    else if key = k then (key, v) :: t
    else (k, w) :: Smap.set t key v

/-- `std::map::erase` of a key. -/
def Smap.erase {α : Type} : Smap α → String → Smap α
  | [], _ => []
  | (k, w) :: t, key => if key = k then t else (k, w) :: Smap.erase t key

/-- Current code version (`g_szVersion`). -/
def g_szVersion : String := "20200731"

/-- Name of the CMEC TOC file (`g_szCMECTOCName`). -/
def g_szCMECTOCName : String := "contents.json"

/-- Name of the CMEC settings file (`g_szCMECSettingsName`). -/
def g_szCMECSettingsName : String := "settings.json"

/-- Path join, `filesystem::path::operator/`. -/
def pjoin (a b : String) : String := a ++ "/" ++ b

/-- Model of the filesystem: paths mapped to the parsed JSON content of
the file stored there.  A path absent from the list models a file that
cannot be opened. -/
abbrev FS : Type := List (String × JValue)

/-- File lookup by path. -/
def FS.find : FS → String → Option JValue
  | [], _ => none
  | (p, j) :: t, path => if path = p then some j else FS.find t path

/-- `path.exists()` for a file at the given path. -/
def FS.has (fs : FS) (path : String) : Bool := (FS.find fs path).isSome

/-- Validation performed by `CMECModuleSettings::ReadFromFile` after a
successful parse: `settings` must be an object with string entries
`name`, `long_name` and `driver`, and `varlist` and `obslist` must be
objects.  Returns the boolean result of the member function. -/
def settingsValid (j : JValue) : Bool :=
  match j.get "settings" with
  | some (.obj sf) =>
    (match jlookup sf "name" with | some (.str _) => true | _ => false) &&
    (match jlookup sf "long_name" with | some (.str _) => true | _ => false) &&
    (match jlookup sf "driver" with | some (.str _) => true | _ => false) &&
    (match j.get "varlist" with | some (.obj _) => true | _ => false) &&
    (match j.get "obslist" with | some (.obj _) => true | _ => false)
  | _ => false

/-- `CMECModuleSettings::GetName`: reads `m_jsettings["settings"]["name"]`.
The source performs an unchecked JSON lookup (undefined when the key is
absent, which validation excludes); the absent case is represented by the
empty-string default. -/
def settingsGetName (j : JValue) : String :=
  (((j.get "settings").bind (fun s => JValue.get s "name")).bind JValue.asStr).getD ""

/-- `CMECModuleSettings::GetDriverScript`: reads
`m_jsettings["settings"]["driver"]` (same convention as `settingsGetName`). -/
def settingsGetDriverScript (j : JValue) : String :=
  (((j.get "settings").bind (fun s => JValue.get s "driver")).bind JValue.asStr).getD ""

/-- Errors that terminate a driver command in the embedded fragment.
`moduleNotFoundUB` marks the state reached by `cmec_run` after a failed
library lookup: the source prints an error and then dereferences the end
iterator (neither `continue` nor `return` follows), which is undefined
behavior in C++ and is modeled by this distinguished outcome. -/
inductive RunError where
  | cannotOpen (path : String)
  | emptySelector
  | danglingSlash (sel : String)
  | invalidChars (sel : String)
  | moduleNotFoundUB (name : String)
  | singleConfiguration (name : String)
  | invalidSettings (path : String)
  | invalidTOC (path : String)
  | malformedContentsEntry
  | noConfiguration (name : String) (config : String)
  | noDriversFound
  | overwriteRefused (path : String)
  | inputExhausted
deriving DecidableEq, Repr

/-- `CMECModuleSettings::ReadFromFile`: opening a missing file raises an
exception; otherwise the parsed document is stored and the validation
result is returned alongside it. -/
def settingsReadFromFile (fs : FS) (pathSettings : String) :
    Except RunError (Bool × JValue) :=
  match FS.find fs pathSettings with
  | none => .error (.cannotOpen pathSettings)
  | some j => .ok (settingsValid j, j)

/-- Character class accepted in module names and run selectors:
`isalnum`, underscore, or forward slash. -/
def validNameChar (c : Char) : Bool := c.isAlphanum || c = '_' || c = '/'

/-- Result of `CMECModuleTOC::ReadFromModulePath`: the parsed
`contents.json` document and the configuration map built from it
(configuration name mapped to the settings file path). -/
structure TOCResult where
  jcmec : JValue
  configs : Smap String

/-- `CMECModuleTOC::GetName`: reads `m_jcmec["module"]["name"]`
(unchecked lookup in the source, empty-string default here). -/
def tocGetName (j : JValue) : String :=
  (((j.get "module").bind (fun m => JValue.get m "name")).bind JValue.asStr).getD ""

/-- The configuration-loading loop of `CMECModuleTOC::ReadFromModulePath`:
each entry of the `contents` array must be a string (otherwise an
exception is raised); its settings file is read, and on successful
validation the configuration is inserted into the map keyed by its
declared name.  `std::map::insert` does not overwrite, so on a name
collision the earlier entry is kept. -/
def loadConfigs (fs : FS) (pathModule : String) :
    List JValue → Smap String → Except RunError (Smap String)
  | [], acc => .ok acc
  | e :: rest, acc =>
    match e with
    | .str s =>
      (match settingsReadFromFile fs (pjoin pathModule s) with
       | .error err => .error err
       | .ok (fSuccess, j) =>
         if fSuccess then
           loadConfigs fs pathModule rest
             (Smap.insert acc (settingsGetName j) (pjoin pathModule s))
         else
           loadConfigs fs pathModule rest acc)
    | _ => .error .malformedContentsEntry

/-- `CMECModuleTOC::ReadFromModulePath`: opens `contents.json` in the
module directory (exception when missing), validates `module.name`
(string over the accepted character class), `module.long_name` (string)
and `contents` (array), then loads the configurations.  A validation
failure returns `false` with the stored document and an empty map,
mirroring the member function's boolean result. -/
def tocReadFromModulePath (fs : FS) (pathModule : String) :
    Except RunError (Bool × TOCResult) :=
  match FS.find fs (pjoin pathModule g_szCMECTOCName) with
  | none => .error (.cannotOpen (pjoin pathModule g_szCMECTOCName))
  | some j =>
    match j.get "module" with
    | some (.obj jm) =>
      (match jlookup jm "name" with
       | some (.str strName) =>
         if strName.toList.all validNameChar then
           (match jlookup jm "long_name" with
            | some (.str _) =>
              (match j.get "contents" with
               | some (.arr jcontents) =>
                 (match loadConfigs fs pathModule jcontents [] with
                  | .error e => .error e
                  | .ok cfgs => .ok (true, ⟨j, cfgs⟩))
               | _ => .ok (false, ⟨j, []⟩))
            | _ => .ok (false, ⟨j, []⟩))
         else .ok (false, ⟨j, []⟩)
       | _ => .ok (false, ⟨j, []⟩))
    | _ => .ok (false, ⟨j, []⟩)

/-- The CMEC module library: the in-memory name-to-path map
(`m_mapModulePaths`) and the `modules` object of the JSON document
(`m_jlib`), the two representations kept by the source. -/
structure CMECLibrary where
  modules : Smap String
  jmodules : Smap String
deriving DecidableEq, Repr

/-- `CMECLibrary::find` on the module map. -/
def CMECLibrary.find (lib : CMECLibrary) (strModule : String) : Option String :=
  Smap.find lib.modules strModule

/-- `CMECLibrary::size`. -/
def CMECLibrary.size (lib : CMECLibrary) : Nat :=
  List.length lib.modules

/-- `CMECLibrary::Insert`: fails (returning `false`, original library
unchanged) when the module name is already present; otherwise inserts
into the map and assigns into the JSON `modules` object. -/
def CMECLibrary.Insert (lib : CMECLibrary) (strModuleName path : String) :
    CMECLibrary × Bool :=
  if (Smap.find lib.modules strModuleName).isSome then (lib, false)
  else
    (⟨Smap.insert lib.modules strModuleName path,
      Smap.set lib.jmodules strModuleName path⟩, true)

/-- `CMECLibrary::Remove`: returns `false` (library unchanged) when the
name is absent from the map; raises the logic-error exception when the
name is in the map but not in the JSON document; otherwise erases the
entry from both representations. -/
def CMECLibrary.Remove (lib : CMECLibrary) (strModuleName : String) :
    Except String (CMECLibrary × Bool) :=
  match Smap.find lib.modules strModuleName with
  | none => .ok (lib, false)
  | some _ =>
    match Smap.find lib.jmodules strModuleName with
    | none => .error "Logic error: Module appears in map but not in json representation"
    | some _ =>
      .ok (⟨Smap.erase lib.modules strModuleName,
            Smap.erase lib.jmodules strModuleName⟩, true)

/-- Failure modes of `CMECLibrary::Read` after a successful JSON parse. -/
inductive LibError where
  | malformed (what : String)
  | versionError (libVersion : String)
deriving DecidableEq, Repr

/-- The module-loading loop of `CMECLibrary::Read`: every entry of the
`modules` object must be a string, and a name already present in the map
raises the repeated-module exception. -/
def loadModules : List (String × JValue) → Smap String → Except LibError (Smap String)
  | [], acc => .ok acc
  | (k, v) :: t, acc =>
    match v with
    | .str s =>
      if (Smap.find acc k).isSome then
        .error (.malformed "Repeated module name")
      else loadModules t (Smap.insert acc k s)
    | _ => .error (.malformed "an entry of the modules array is not of type string")

/-- The value stored alongside a module entry in the JSON document,
with the empty-string default for the non-string case that
`loadModules` rejects. -/
def jmoduleEntries (mf : List (String × JValue)) : Smap String :=
  mf.map (fun kv => (kv.1, (JValue.asStr kv.2).getD ""))

/-- Validation and loading performed by `CMECLibrary::Read` on the parsed
library document: `cmec-driver` must be an object, `version` a string and
`modules` an object; the version check fails when the driver version
compares less than the stored version (plain lexicographic string
comparison); finally the modules are loaded. -/
def libraryReadJson (j : JValue) : Except LibError CMECLibrary :=
  match j.get "cmec-driver" with
  | some (.obj _) =>
    (match j.get "version" with
     | some (.str strLibVersion) =>
       (match j.get "modules" with
        | some (.obj mf) =>
          if strLtb g_szVersion strLibVersion then .error (.versionError strLibVersion)
          else
            (match loadModules mf [] with
             | .error e => .error e
             | .ok m => .ok ⟨m, jmoduleEntries mf⟩)
        | _ => .error (.malformed "modules"))
     | _ => .error (.malformed "version"))
  | _ => .error (.malformed "cmec-driver")

/-- The skeleton document written by `CMECLibrary::Read` when the library
file does not exist. -/
def librarySkeletonJson : JValue :=
  .obj [("version", .str g_szVersion), ("cmec-driver", .obj []), ("modules", .obj [])]

/-- `CMECLibrary::Read` as a function of the (optional) current content
of the library file.  The first component is the file content written by
the call: the skeleton is created only when the file is missing; reading
an existing file writes nothing. -/
def libraryRead (file : Option JValue) : Option JValue × Except LibError CMECLibrary :=
  match file with
  | some j => (none, libraryReadJson j)
  | none => (some librarySkeletonJson, libraryReadJson librarySkeletonJson)

/-- Failure modes of `cmec_register`. -/
inductive RegError where
  | readError (e : RunError)
  | insertFailed (name : String)
  | noDescriptor
deriving DecidableEq, Repr

/-- `cmec_register` on an already-loaded library: if the module directory
contains a settings file, the source passes the module directory path
itself (not the settings file inside it) to
`CMECModuleSettings::ReadFromFile`, discards the boolean validation
result, and inserts under `GetName()`; the TOC branch likewise discards
the validation result.  Returns the updated library and the registered
name. -/
def cmec_register (fs : FS) (lib : CMECLibrary) (strDirectory : String) :
    Except RegError (CMECLibrary × String) :=
  if FS.has fs (pjoin strDirectory g_szCMECSettingsName) then
    match settingsReadFromFile fs strDirectory with
    | .error e => .error (.readError e)
    | .ok (_, j) =>
      match CMECLibrary.Insert lib (settingsGetName j) strDirectory with
      | (lib2, true) => .ok (lib2, settingsGetName j)
      | (_, false) => .error (.insertFailed (settingsGetName j))
  else if FS.has fs (pjoin strDirectory g_szCMECTOCName) then
    match tocReadFromModulePath fs strDirectory with
    | .error e => .error (.readError e)
    | .ok (_, t) =>
      match CMECLibrary.Insert lib (tocGetName t.jcmec) strDirectory with
      | (lib2, true) => .ok (lib2, tocGetName t.jcmec)
      | (_, false) => .error (.insertFailed (tocGetName t.jcmec))
  else .error .noDescriptor

/-- One entry of the execution plan built by `cmec_run`: the module path,
the driver script path and the working-directory label, the triple pushed
onto `vecModulePaths`, `vecDriverScripts` and `vecWorkingDirs`. -/
structure PlanEntry where
  modulePath : String
  driverScript : String
  workingDir : String
deriving DecidableEq, Repr

/-- The selector-splitting loop of `cmec_run`: the characters before the
first slash and the characters after it. -/
def splitAtSlash : List Char → List Char × List Char
  | [] => ([], [])
  | c :: t =>
    if c = '/' then ([], t)
    else
      let p := splitAtSlash t
      (c :: p.1, p.2)

/-- Splitting a selector into `(strParentModule, strConfiguration)`:
when no slash is found (or the parent part is empty) the whole selector
is the parent module and the configuration is empty. -/
def parseSelector (sel : List Char) : String × String :=
  if (splitAtSlash sel).1 = [] then (String.mk sel, "")
  else (String.mk (splitAtSlash sel).1, String.mk (splitAtSlash sel).2)

/-- The configuration loop of the multi-configuration branch of
`cmec_run`: entries not matching a non-empty requested configuration are
skipped; a matching entry has its settings file re-read (failure aborts
the run) and contributes a plan entry labeled with the TOC module name
joined to the settings name.  The boolean is `fContainsConfiguration`. -/
def resolveConfigs (fs : FS) (pathModule tocName strConfiguration : String) :
    Smap String → Except RunError (List PlanEntry × Bool)
  | [] => .ok ([], false)
  | (cname, cpath) :: rest =>
    if strConfiguration ≠ "" ∧ strConfiguration ≠ cname then
      resolveConfigs fs pathModule tocName strConfiguration rest
    else
      match settingsReadFromFile fs cpath with
      | .error e => .error e
      | .ok (false, _) => .error (.invalidSettings cpath)
      | .ok (true, j) =>
        match resolveConfigs fs pathModule tocName strConfiguration rest with
        | .error e => .error e
        | .ok (es, _) =>
          .ok (⟨pathModule, pjoin pathModule (settingsGetDriverScript j),
                pjoin tocName (settingsGetName j)⟩ :: es, true)

/-- The per-selector body of `cmec_run` after the selector has been
split into parent module and configuration: library lookup (whose
failure is the undefined-behavior state, see
`RunError.moduleNotFoundUB`), then the single-configuration branch, the
multi-configuration branch, or — with neither descriptor file present —
an error printed in the source while processing continues, so no entry
is contributed. -/
def resolveParsed (fs : FS) (lib : CMECLibrary)
    (strParentModule strConfiguration : String) : Except RunError (List PlanEntry) :=
  match CMECLibrary.find lib strParentModule with
  | none => .error (.moduleNotFoundUB strParentModule)
  | some dir =>
    if FS.has fs (pjoin dir g_szCMECSettingsName) then
      if strConfiguration ≠ "" then .error (.singleConfiguration strParentModule)
      else
        match settingsReadFromFile fs (pjoin dir g_szCMECSettingsName) with
        | .error e => .error e
        | .ok (false, _) => .error (.invalidSettings (pjoin dir g_szCMECSettingsName))
        | .ok (true, j) =>
          .ok [⟨dir, pjoin dir (settingsGetDriverScript j), settingsGetName j⟩]
    else if FS.has fs (pjoin dir g_szCMECTOCName) then
      match tocReadFromModulePath fs dir with
      | .error e => .error e
      | .ok (false, _) => .error (.invalidTOC dir)
      | .ok (true, t) =>
        match resolveConfigs fs dir (tocGetName t.jcmec) strConfiguration t.configs with
        | .error e => .error e
        | .ok (es, fContainsConfiguration) =>
          if strConfiguration ≠ "" ∧ ¬ fContainsConfiguration then
            .error (.noConfiguration strParentModule strConfiguration)
          else .ok es
    else .ok []

/-- Resolution of one selector by `cmec_run`: validation (non-empty, no
dangling slash, accepted characters), split into parent module and
configuration, then `resolveParsed`. -/
def resolveOne (fs : FS) (lib : CMECLibrary) (sel : List Char) :
    Except RunError (List PlanEntry) :=
  if sel = [] then .error .emptySelector
  else if sel.getLast? = some '/' then .error (.danglingSlash (String.mk sel))
  else if ¬ (sel.all validNameChar = true) then .error (.invalidChars (String.mk sel))
  else resolveParsed fs lib (parseSelector sel).1 (parseSelector sel).2

/-- The selector loop of `cmec_run`: plan entries of each selector are
appended in order; an error from one selector aborts the command. -/
def resolveSelectors (fs : FS) (lib : CMECLibrary) :
    List (List Char) → Except RunError (List PlanEntry)
  | [] => .ok []
  | s :: rest =>
    match resolveOne fs lib s with
    | .error e => .error e
    | .ok es =>
      match resolveSelectors fs lib rest with
      | .error e => .error e
      | .ok es2 => .ok (es ++ es2)

/-- The plan-building phase of `cmec_run`, ending at the zero-driver
check: an empty plan is the no-driver-files-found error. -/
def cmec_run_plan (fs : FS) (lib : CMECLibrary) (vecModules : List (List Char)) :
    Except RunError (List PlanEntry) :=
  match resolveSelectors fs lib vecModules with
  | .error e => .error e
  | .ok plan => if plan.length = 0 then .error .noDriversFound else .ok plan

/-- The overwrite-confirmation loop of `cmec_run` over the stream of
single keypresses: `y` or `Y` confirms, `n`, `N`, newline or carriage
return refuses, and any other key is discarded and another key is read.
Returns the decision and the remaining key stream (`none` when the
stream is exhausted, a state in which the source would block reading). -/
def promptOverwrite : List Char → Option (Bool × List Char)
  | [] => none
  | c :: rest =>
    if c = 'y' ∨ c = 'Y' then some (true, rest)
    else if c = '\n' ∨ c = '\r' ∨ c = 'n' ∨ c = 'N' then some (false, rest)
    else promptOverwrite rest

/-- The output-directory creation loop of `cmec_run`: per plan entry, an
already-existing output directory triggers the overwrite prompt, and a
refusal aborts the entire run with an error; on confirmation (or a fresh
path) the directory is (re)created, so the path exists for subsequent
entries.  The external shell and filesystem collaborators are assumed to
succeed.  Returns the set of existing paths and the remaining keys. -/
def createOutputDirs (pathWorkingDir : String) :
    List String → List Char → List PlanEntry →
    Except RunError (List String × List Char)
  | existing, keys, [] => .ok (existing, keys)
  | existing, keys, e :: rest =>
    if pjoin pathWorkingDir e.workingDir ∈ existing then
      match promptOverwrite keys with
      | none => .error .inputExhausted
      | some (false, _) => .error (.overwriteRefused (pjoin pathWorkingDir e.workingDir))
      | some (true, keys2) =>
        createOutputDirs pathWorkingDir
          (pjoin pathWorkingDir e.workingDir :: existing) keys2 rest
    else
      createOutputDirs pathWorkingDir
        (pjoin pathWorkingDir e.workingDir :: existing) keys rest

/-- Outcome of a completed `cmec_run`: the execution plan and the
environment scripts invoked, one per plan entry and in plan order. -/
structure RunResult where
  plan : List PlanEntry
  executed : List String
deriving DecidableEq, Repr

/-- `cmec_run` from selector resolution to driver invocation: build the
plan, fail on an empty plan, create the output directories (with
overwrite prompts), then execute every entry's environment script in
order.  Directory validation of the three data paths, which precedes
this fragment in the source, is not modeled. -/
def cmec_run (fs : FS) (lib : CMECLibrary) (pathWorkingDir : String)
    (existing : List String) (keys : List Char) (vecModules : List (List Char)) :
    Except RunError RunResult :=
  match cmec_run_plan fs lib vecModules with
  | .error e => .error e
  | .ok plan =>
    match createOutputDirs pathWorkingDir existing keys plan with
    | .error e => .error e
    | .ok _ =>
      .ok ⟨plan, plan.map (fun e => pjoin (pjoin pathWorkingDir e.workingDir) "cmec_run.bash")⟩

/-- Character class of a plain (slash-free) module or configuration
name: alphanumeric or underscore. -/
def alnumOrUnderscore (c : Char) : Bool := c.isAlphanum || c = '_'

/-- Whether a library-read outcome is the version-compatibility error. -/
def isVersionError : Except LibError CMECLibrary → Bool
  | .error (.versionError _) => true
  | _ => false

/-- Structural well-formedness of a library document, as checked by
`CMECLibrary::Read` before the version comparison: `cmec-driver` is an
object, `version` is a string and `modules` is an object. -/
def wellFormedLibJson (j : JValue) : Bool :=
  (match j.get "cmec-driver" with | some (.obj _) => true | _ => false) &&
  (match j.get "version" with | some (.str _) => true | _ => false) &&
  (match j.get "modules" with | some (.obj _) => true | _ => false)

/-- The version string stored in a library document. -/
def versionOf (j : JValue) : String :=
  ((j.get "version").bind JValue.asStr).getD ""

/-- A single-configuration settings document with the given name, long
name and driver script (all required keys present and well-typed). -/
def exSettings (n ln d : String) : JValue :=
  .obj [("settings", .obj [("name", .str n), ("long_name", .str ln), ("driver", .str d)]),
        ("varlist", .obj []), ("obslist", .obj [])]

/-- A multi-configuration contents document with the given module name,
long name and contents entries. -/
def exToc (n ln : String) (contents : List String) : JValue :=
  .obj [("module", .obj [("name", .str n), ("long_name", .str ln)]),
        ("contents", .arr (contents.map JValue.str))]

/-- A library holding the single module `demo` at `/d`. -/
def demoLib : CMECLibrary := ⟨[("demo", "/d")], [("demo", "/d")]⟩

/-- A filesystem where `/d` is a single-configuration module named
`demo`. -/
def demoFS : FS := [("/d/settings.json", exSettings "demo" "Demo Module" "run.sh")]

/-- A library holding the single module `mod` at `/m`. -/
def modLib : CMECLibrary := ⟨[("mod", "/m")], [("mod", "/m")]⟩

/-- A filesystem where `/m` is a multi-configuration module `mod` with
configurations `alpha` and `beta`. -/
def modFS : FS :=
  [("/m/contents.json", exToc "mod" "Mod" ["sa.json", "sb.json"]),
   ("/m/sa.json", exSettings "alpha" "Alpha" "ra.sh"),
   ("/m/sb.json", exSettings "beta" "Beta" "rb.sh")]

/-- A filesystem where the two contents entries of module `mod` declare
the same configuration name `alpha`. -/
def dupNameFS : FS :=
  [("/m/contents.json", exToc "mod" "Mod" ["s1.json", "s2.json"]),
   ("/m/s1.json", exSettings "alpha" "Alpha" "run1.sh"),
   ("/m/s2.json", exSettings "alpha" "Alpha Two" "run2.sh")]

/-- A settings document that fails validation (no `varlist`/`obslist`)
but still declares `settings.name` as `ghost`. -/
def ghostSettingsJson : JValue :=
  .obj [("settings", .obj [("name", .str "ghost"), ("long_name", .str "G"),
        ("driver", .str "d.sh")])]

/-- A well-formed library document with the given version string and no
modules. -/
def exLibJson (v : String) : JValue :=
  .obj [("version", .str v), ("cmec-driver", .obj []), ("modules", .obj [])]

/-- The configuration table of a successful, validated TOC read. -/
def tocConfigsOf : Except RunError (Bool × TOCResult) → Option (Smap String)
  | .ok (true, t) => some t.configs
  | _ => none

/-! ### Helper lemmas -/

theorem Smap.find_insert_self {α : Type} (m : Smap α) (k : String) (v : α)
    (h : Smap.find m k = none) : Smap.find (Smap.insert m k v) k = some v := by
  induction m with
  | nil => simp [Smap.insert, Smap.find]
  | cons hd t ih =>
    obtain ⟨k', w⟩ := hd
    simp only [Smap.find] at h
    by_cases hk : k = k'
    · simp [hk] at h
    · simp only [if_neg hk] at h
      simp only [Smap.insert]
      by_cases hlt : strLtb k k' = true
      · simp [hlt, Smap.find]
      · simp [hlt, hk, Smap.find, ih h]

theorem alnumOrUnderscore_ne_slash {c : Char} (h : alnumOrUnderscore c = true) :
    c ≠ '/' := by
  intro hc
  subst hc
  exact absurd h (by decide)

theorem alnumOrUnderscore_validNameChar {c : Char}
    (h : alnumOrUnderscore c = true) : validNameChar c = true := by
  simp only [alnumOrUnderscore, Bool.or_eq_true] at h
  simp only [validNameChar, Bool.or_eq_true]
  tauto

theorem splitAtSlash_no_slash (l : List Char)
    (h : l.all alnumOrUnderscore = true) : splitAtSlash l = (l, []) := by
  induction l with
  | nil => rfl
  | cons c t ih =>
    simp only [List.all_cons, Bool.and_eq_true] at h
    simp [splitAtSlash, alnumOrUnderscore_ne_slash h.1, ih h.2]

theorem splitAtSlash_append (l r : List Char)
    (h : l.all alnumOrUnderscore = true) :
    splitAtSlash (l ++ '/' :: r) = (l, r) := by
  induction l with
  | nil => simp [splitAtSlash]
  | cons c t ih =>
    simp only [List.all_cons, Bool.and_eq_true] at h
    simp [splitAtSlash, alnumOrUnderscore_ne_slash h.1, ih h.2]

theorem getLast?_not_slash (l : List Char)
    (h : l.all alnumOrUnderscore = true) : l.getLast? ≠ some '/' := by
  induction l with
  | nil => simp
  | cons c t ih =>
    simp only [List.all_cons, Bool.and_eq_true] at h
    cases t with
    | nil =>
      simp only [List.getLast?_singleton, ne_eq, Option.some.injEq]
      exact alnumOrUnderscore_ne_slash h.1
    | cons c2 t2 =>
      rw [List.getLast?_cons_cons]
      exact ih h.2

theorem strMk_toList (s : String) : String.mk s.toList = s := rfl

theorem toList_ne_nil {s : String} (h : s ≠ "") : s.toList ≠ [] := by
  intro hl
  apply h
  have : String.mk s.toList = String.mk [] := by rw [hl]
  simpa [strMk_toList] using this

/-! ### Claim theorems -/

/-- C5: on any library where the module name is not yet present,
`Insert(name, p)` succeeds and a subsequent `find(name)` returns `p`. -/
theorem library_insert_then_find (lib : CMECLibrary) (name p : String)
    (h : CMECLibrary.find lib name = none) :
    CMECLibrary.find (CMECLibrary.Insert lib name p).1 name = some p ∧
    (CMECLibrary.Insert lib name p).2 = true := by
  have h' : Smap.find lib.modules name = none := h
  refine ⟨?_, ?_⟩
  · simp [CMECLibrary.Insert, h', CMECLibrary.find, Smap.find_insert_self _ _ _ h']
  · simp [CMECLibrary.Insert, h']

/-- Witness for `library_insert_then_find` on a concrete library. -/
theorem library_insert_then_find_witness :
    CMECLibrary.find (⟨[("a", "/a")], [("a", "/a")]⟩ : CMECLibrary) "m" = none ∧
    (CMECLibrary.find (CMECLibrary.Insert ⟨[("a", "/a")], [("a", "/a")]⟩ "m" "/m").1 "m"
        = some "/m" ∧
      (CMECLibrary.Insert (⟨[("a", "/a")], [("a", "/a")]⟩ : CMECLibrary) "m" "/m").2 = true) :=
  ⟨by decide, library_insert_then_find ⟨[("a", "/a")], [("a", "/a")]⟩ "m" "/m" (by decide)⟩

/-- C6: `Insert` of an already-present name returns `false` without
raising and leaves both the module map and the JSON document unchanged;
`Remove` of an absent name returns `false` and leaves the library
unchanged; the size is unchanged after either failed operation. -/
theorem library_failed_insert_remove_unchanged (lib : CMECLibrary)
    (name other p : String)
    (hin : (CMECLibrary.find lib name).isSome = true)
    (hout : CMECLibrary.find lib other = none) :
    CMECLibrary.Insert lib name p = (lib, false) ∧
    CMECLibrary.Remove lib other = .ok (lib, false) ∧
    CMECLibrary.size (CMECLibrary.Insert lib name p).1 = CMECLibrary.size lib := by
  have hin' : (Smap.find lib.modules name).isSome = true := hin
  have hout' : Smap.find lib.modules other = none := hout
  have h1 : CMECLibrary.Insert lib name p = (lib, false) := by
    simp [CMECLibrary.Insert, hin']
  refine ⟨h1, ?_, by rw [h1]⟩
  simp [CMECLibrary.Remove, hout']

/-- Witness for `library_failed_insert_remove_unchanged` on a concrete
library. -/
theorem library_failed_insert_remove_unchanged_witness :
    (CMECLibrary.find (⟨[("m", "/p")], [("m", "/p")]⟩ : CMECLibrary) "m").isSome = true ∧
    CMECLibrary.find (⟨[("m", "/p")], [("m", "/p")]⟩ : CMECLibrary) "q" = none ∧
    (CMECLibrary.Insert ⟨[("m", "/p")], [("m", "/p")]⟩ "m" "/x"
        = ((⟨[("m", "/p")], [("m", "/p")]⟩ : CMECLibrary), false) ∧
      CMECLibrary.Remove ⟨[("m", "/p")], [("m", "/p")]⟩ "q"
        = .ok ((⟨[("m", "/p")], [("m", "/p")]⟩ : CMECLibrary), false) ∧
      CMECLibrary.size (CMECLibrary.Insert ⟨[("m", "/p")], [("m", "/p")]⟩ "m" "/x").1
        = CMECLibrary.size ⟨[("m", "/p")], [("m", "/p")]⟩) :=
  ⟨by decide, by decide,
    library_failed_insert_remove_unchanged ⟨[("m", "/p")], [("m", "/p")]⟩ "m" "q" "/x"
      (by decide) (by decide)⟩

theorem listLtb_lex : ∀ (as bs : List Char),
    listLtb as bs = true ↔ List.Lex (fun a b : Char => a < b) as bs
  | [], [] => by
    simp only [listLtb]
    exact iff_of_false (by simp) (by intro h; cases h)
  | [], _ :: _ => ⟨fun _ => List.Lex.nil, fun _ => rfl⟩
  | _ :: _, [] => by
    simp only [listLtb]
    exact iff_of_false (by simp) (by intro h; cases h)
  | a :: as, b :: bs => by
    simp only [listLtb]
    by_cases h1 : a < b
    · simp only [if_pos h1]
      exact ⟨fun _ => List.Lex.rel h1, fun _ => trivial⟩
    · simp only [if_neg h1]
      by_cases h2 : b < a
      · simp only [if_pos h2]
        refine iff_of_false (by simp) ?_
        intro h
        cases h with
        | cons h => exact absurd h2 (lt_irrefl a)
        | rel h => exact absurd h h1
      · simp only [if_neg h2]
        have hab : a = b := le_antisymm (not_lt.mp h2) (not_lt.mp h1)
        subst hab
        rw [listLtb_lex as bs]
        constructor
        · exact fun h => List.Lex.cons h
        · intro h
          cases h with
          | cons h => exact h
          | rel h => exact absurd h h1

theorem strLtb_lt (a b : String) : strLtb a b = true ↔ a < b := by
  rw [strLtb, listLtb_lex, String.lt_iff_toList_lt]
  exact Iff.rfl

theorem strLtb_irrefl (a : String) : strLtb a a = false := by
  by_contra h
  have h' : strLtb a a = true := by
    cases hv : strLtb a a with
    | true => rfl
    | false => exact absurd hv h
  exact absurd ((strLtb_lt a a).mp h') (lt_irrefl a)

theorem loadModules_not_versionError (l : List (String × JValue)) :
    ∀ (acc : Smap String) (v : String),
      loadModules l acc ≠ .error (.versionError v) := by
  induction l with
  | nil => intro acc v; simp [loadModules]
  | cons hd t ih =>
    intro acc v
    obtain ⟨k, val⟩ := hd
    cases val with
    | str s =>
      simp only [loadModules]
      by_cases h : (Smap.find acc k).isSome
      · simp [h]
      · simp only [h, if_false, Bool.false_eq_true]
        exact ih _ v
    | obj f => simp [loadModules]
    | arr e => simp [loadModules]
    | null => simp [loadModules]

/-- C7: reading an existing, structurally well-formed library file writes
nothing back to disk, and the read fails with the version error exactly
when the stored version string compares lexicographically greater than
the driver version (plain string comparison). -/
theorem library_version_check (j : JValue) (h : wellFormedLibJson j = true) :
    (libraryRead (some j)).1 = none ∧
    (isVersionError (libraryRead (some j)).2 = true ↔ g_szVersion < versionOf j) := by
  refine ⟨rfl, ?_⟩
  simp only [wellFormedLibJson, Bool.and_eq_true] at h
  obtain ⟨⟨h1, h2⟩, h3⟩ := h
  show isVersionError (libraryReadJson j) = true ↔ g_szVersion < versionOf j
  cases hcd : j.get "cmec-driver" with
  | none => rw [hcd] at h1; simp at h1
  | some d =>
    cases d with
    | str s => rw [hcd] at h1; simp at h1
    | arr e => rw [hcd] at h1; simp at h1
    | null => rw [hcd] at h1; simp at h1
    | obj df =>
      cases hv : j.get "version" with
      | none => rw [hv] at h2; simp at h2
      | some vv =>
        cases vv with
        | obj f => rw [hv] at h2; simp at h2
        | arr e => rw [hv] at h2; simp at h2
        | null => rw [hv] at h2; simp at h2
        | str v =>
          cases hm : j.get "modules" with
          | none => rw [hm] at h3; simp at h3
          | some mv =>
            cases mv with
            | str s => rw [hm] at h3; simp at h3
            | arr e => rw [hm] at h3; simp at h3
            | null => rw [hm] at h3; simp at h3
            | obj mf =>
              have hver : versionOf j = v := by
                simp [versionOf, hv, JValue.asStr]
              rw [hver]
              simp only [libraryReadJson, hcd, hv, hm]
              by_cases hlt : strLtb g_szVersion v = true
              · simp only [hlt, if_true]
                exact iff_of_true rfl ((strLtb_lt _ _).mp hlt)
              · simp only [hlt, if_false, Bool.false_eq_true]
                refine iff_of_false ?_ (fun hc => hlt ((strLtb_lt _ _).mpr hc))
                cases hload : loadModules mf [] with
                | ok m => simp [isVersionError]
                | error e =>
                  cases e with
                  | malformed w => simp [isVersionError]
                  | versionError v2 => exact absurd hload (loadModules_not_versionError mf [] v2)

/-- Witness for `library_version_check`: a concrete well-formed library
file whose stored version exceeds the driver version triggers the
version error and nothing is written. -/
theorem library_version_check_witness :
    wellFormedLibJson (exLibJson "20200732") = true ∧
    (libraryRead (some (exLibJson "20200732"))).1 = none ∧
    isVersionError (libraryRead (some (exLibJson "20200732"))).2 = true :=
  ⟨by decide, (library_version_check (exLibJson "20200732") (by decide)).1,
    (library_version_check (exLibJson "20200732") (by decide)).2.mpr
      ((strLtb_lt _ _).mp (by decide))⟩

/-- C10: `cmec_register` hands the module directory path itself (not the
settings file inside it) to the settings reader, so a module whose
settings document sits only at the standard location fails to open; and
it ignores the validation result, so a document at the read path that
fails validation is still inserted into the library under whatever name
the accessor returns. -/
theorem register_ignores_validation :
    (cmec_register [("/m/settings.json", exSettings "demo" "Demo" "run.sh")]
        ⟨[], []⟩ "/m" = .error (.readError (.cannotOpen "/m"))) ∧
    settingsValid ghostSettingsJson = false ∧
    (cmec_register [("/m", ghostSettingsJson),
        ("/m/settings.json", exSettings "demo" "Demo" "run.sh")] ⟨[], []⟩ "/m"
      = .ok (⟨[("ghost", "/m")], [("ghost", "/m")]⟩, "ghost")) :=
  ⟨rfl, rfl, rfl⟩

/-- C4 (code bug): for a selector whose parent module is not in the
library, `cmec_run` does not skip to the remaining selectors: the source
prints the error and then dereferences the end iterator (undefined
behavior, the `moduleNotFoundUB` outcome), although the remaining
selector alone would have contributed a plan entry. -/
theorem run_unknown_module_is_undefined_behavior :
    resolveSelectors demoFS demoLib ["zzz".toList, "demo".toList]
      = .error (.moduleNotFoundUB "zzz") ∧
    resolveSelectors demoFS demoLib ["demo".toList]
      = .ok [⟨"/d", "/d/run.sh", "demo"⟩] :=
  ⟨rfl, rfl⟩

/-- C8 counterexample: with two contents entries both declaring
configuration name `alpha`, the configs table maps `alpha` to the
earlier entry's settings path `/m/s1.json`, not the later `/m/s2.json`
as the claim states. -/
theorem toc_duplicate_name_counterexample :
    tocConfigsOf (tocReadFromModulePath dupNameFS "/m")
      = some [("alpha", "/m/s1.json")] ∧
    "/m/s1.json" ≠ "/m/s2.json" :=
  ⟨rfl, by decide⟩

/-- C8 amended: when two entries of a multi-configuration TOC parse
successfully to settings declaring the same configuration name, the
later entry is dropped without warning: `configs` maps that name to the
settings path of the earlier entry. -/
theorem toc_duplicate_name_keeps_earlier
    (fs : FS) (dir s1 s2 n mname lname : String) (j1 j2 : JValue)
    (hm : mname.toList.all validNameChar = true)
    (htoc : FS.find fs (pjoin dir g_szCMECTOCName)
      = some (exToc mname lname [s1, s2]))
    (h1 : FS.find fs (pjoin dir s1) = some j1)
    (h2 : FS.find fs (pjoin dir s2) = some j2)
    (hv1 : settingsValid j1 = true) (hv2 : settingsValid j2 = true)
    (hn1 : settingsGetName j1 = n) (hn2 : settingsGetName j2 = n) :
    tocConfigsOf (tocReadFromModulePath fs dir) = some [(n, pjoin dir s1)] := by
  have hm2 : ∀ x ∈ mname.data, validNameChar x = true := by
    simpa [String.toList, List.all_eq_true] using hm
  simp [tocReadFromModulePath, htoc, exToc, JValue.get, jlookup, loadConfigs,
    settingsReadFromFile, h1, h2, hv1, hv2, hn1, hn2, Smap.insert, strLtb_irrefl,
    tocConfigsOf, hm2]
  rw [if_pos hm2]

/-- Witness for `toc_duplicate_name_keeps_earlier` on the concrete
duplicate-name filesystem. -/
theorem toc_duplicate_name_keeps_earlier_witness :
    tocConfigsOf (tocReadFromModulePath dupNameFS "/m")
      = some [("alpha", pjoin "/m" "s1.json")] :=
  toc_duplicate_name_keeps_earlier dupNameFS "/m" "s1.json" "s2.json" "alpha"
    "mod" "Mod" (exSettings "alpha" "Alpha" "run1.sh")
    (exSettings "alpha" "Alpha Two" "run2.sh")
    (by decide) rfl rfl rfl rfl rfl rfl rfl

/-- C9 counterexample: the output directory exists and the user presses
x then y.  The claim predicts refusal at the first non-y key; the code
ignores the x, accepts the y, and the run proceeds past the prompt. -/
theorem overwrite_prompt_counterexample :
    'x' ≠ 'y' ∧
    promptOverwrite ['x', 'y'] = some (true, []) ∧
    createOutputDirs "/w" ["/w/demo"] ['x', 'y'] [⟨"/d", "/d/run.sh", "demo"⟩]
      = .ok (["/w/demo", "/w/demo"], []) :=
  ⟨by decide, rfl, rfl⟩

/-- C9 amended: the overwrite prompt reads keypresses in a loop — y or Y
confirms, n, N, newline or carriage return refuses, any other key is
ignored and another key is read — and on a refusal the entire run aborts
with an error: no further plan entry is processed and no driver script
is executed. -/
theorem overwrite_prompt_refusal_aborts
    (wdir : String) (existing : List String) (ks ks2 : List Char)
    (e : PlanEntry) (rest : List PlanEntry)
    (hex : pjoin wdir e.workingDir ∈ existing)
    (hks : promptOverwrite ks = some (false, ks2)) :
    createOutputDirs wdir existing ks (e :: rest)
      = .error (.overwriteRefused (pjoin wdir e.workingDir)) ∧
    (∀ t, promptOverwrite ('y' :: t) = some (true, t)) ∧
    (∀ t, promptOverwrite ('Y' :: t) = some (true, t)) ∧
    (∀ t, promptOverwrite ('\n' :: t) = some (false, t)) ∧
    (∀ c t, c ≠ 'y' → c ≠ 'Y' → c ≠ 'n' → c ≠ 'N' → c ≠ '\n' → c ≠ '\r' →
      promptOverwrite (c :: t) = promptOverwrite t) ∧
    (∀ fs lib sels, resolveSelectors fs lib sels = .ok (e :: rest) →
      cmec_run fs lib wdir existing ks sels
        = .error (.overwriteRefused (pjoin wdir e.workingDir))) := by
  have habort : createOutputDirs wdir existing ks (e :: rest)
      = .error (.overwriteRefused (pjoin wdir e.workingDir)) := by
    simp [createOutputDirs, hex, hks]
  refine ⟨habort, ?_, ?_, ?_, ?_, ?_⟩
  · intro t; simp [promptOverwrite]
  · intro t; simp [promptOverwrite]
  · intro t; simp [promptOverwrite]
  · intro c t hy hY hn hN hnl hcr
    simp [promptOverwrite, hy, hY, hn, hN, hnl, hcr]
  · intro fs lib sels hres
    simp [cmec_run, cmec_run_plan, hres, habort]

/-- Witness for `overwrite_prompt_refusal_aborts`: pressing Enter on the
prompt for an existing directory aborts the run. -/
theorem overwrite_prompt_refusal_aborts_witness :
    createOutputDirs "/w" ["/w/demo"] ['\n'] [⟨"/d", "/d/run.sh", "demo"⟩]
      = .error (.overwriteRefused (pjoin "/w" "demo")) :=
  (overwrite_prompt_refusal_aborts "/w" ["/w/demo"] ['\n'] []
    ⟨"/d", "/d/run.sh", "demo"⟩ [] (by decide) rfl).1

theorem all_valid_of_all_alnum (l : List Char)
    (h : l.all alnumOrUnderscore = true) : l.all validNameChar = true := by
  rw [List.all_eq_true] at h ⊢
  intro c hc
  exact alnumOrUnderscore_validNameChar (h c hc)

theorem strMk_nil : String.mk ([] : List Char) = "" := rfl

theorem parseSelector_plain (s : String) (hne : s ≠ "")
    (hch : s.toList.all alnumOrUnderscore = true) :
    parseSelector s.toList = (s, "") := by
  unfold parseSelector
  rw [splitAtSlash_no_slash _ hch]
  rw [if_neg (show ¬ ((s.toList, ([] : List Char)).1 = []) from toList_ne_nil hne)]
  rfl

theorem parseSelector_slash (m c : String) (hm : m ≠ "")
    (hmch : m.toList.all alnumOrUnderscore = true) :
    parseSelector (m.toList ++ '/' :: c.toList) = (m, c) := by
  unfold parseSelector
  rw [splitAtSlash_append _ _ hmch]
  rw [if_neg (show ¬ ((m.toList, c.toList).1 = []) from toList_ne_nil hm)]
  rfl

theorem resolveOne_plain (fs : FS) (lib : CMECLibrary) (s : String)
    (hne : s ≠ "") (hch : s.toList.all alnumOrUnderscore = true) :
    resolveOne fs lib s.toList = resolveParsed fs lib s "" := by
  have h0 : s.toList ≠ [] := toList_ne_nil hne
  have h1 : s.toList.getLast? ≠ some '/' := getLast?_not_slash _ hch
  have h2 : s.toList.all validNameChar = true := all_valid_of_all_alnum _ hch
  rw [resolveOne, if_neg h0, if_neg h1, if_neg (not_not_intro h2),
    parseSelector_plain s hne hch]

theorem resolveOne_slash (fs : FS) (lib : CMECLibrary) (m c : String)
    (hm : m ≠ "") (hmch : m.toList.all alnumOrUnderscore = true)
    (hc : c ≠ "") (hcch : c.toList.all alnumOrUnderscore = true) :
    resolveOne fs lib (m.toList ++ '/' :: c.toList) = resolveParsed fs lib m c := by
  have h0 : m.toList ++ '/' :: c.toList ≠ [] := by simp
  have h1 : (m.toList ++ '/' :: c.toList).getLast? ≠ some '/' := by
    rw [List.getLast?_append_cons]
    cases hcl : c.toList with
    | nil => exact absurd hcl (toList_ne_nil hc)
    | cons x t =>
      rw [List.getLast?_cons_cons]
      have hall : (x :: t).all alnumOrUnderscore = true := by rw [← hcl]; exact hcch
      exact getLast?_not_slash (x :: t) hall
  have h2 : (m.toList ++ '/' :: c.toList).all validNameChar = true := by
    simp only [List.all_append, List.all_cons, Bool.and_eq_true]
    exact ⟨all_valid_of_all_alnum _ hmch,
      (by decide : validNameChar (Char.ofNat 47) = true), all_valid_of_all_alnum _ hcch⟩
  rw [resolveOne, if_neg h0, if_neg h1, if_neg (not_not_intro h2),
    parseSelector_slash m c hm hmch]

/-- C1: resolving a multi-configuration module `mod` with TOC
configurations `a` and `b`: the bare selector yields one plan entry per
configuration labeled `mod/a` and `mod/b`; selector `mod/a` yields
exactly the entry labeled `mod/a`; selector `mod/c` for a configuration
not in the TOC fails with the does-not-contain-configuration error. -/
theorem run_multi_config_resolution
    (fs : FS) (lib : CMECLibrary) (mod a b c dir pa pb : String)
    (tj ja jb : JValue)
    (hmod : mod ≠ "") (hmodc : mod.toList.all alnumOrUnderscore = true)
    (ha : a ≠ "") (hac : a.toList.all alnumOrUnderscore = true)
    (hc : c ≠ "") (hcc : c.toList.all alnumOrUnderscore = true)
    (hab : a ≠ b) (hca : c ≠ a) (hcb : c ≠ b)
    (hfind : CMECLibrary.find lib mod = some dir)
    (hnos : FS.has fs (pjoin dir g_szCMECSettingsName) = false)
    (htocex : FS.has fs (pjoin dir g_szCMECTOCName) = true)
    (htoc : tocReadFromModulePath fs dir = .ok (true, ⟨tj, [(a, pa), (b, pb)]⟩))
    (hname : tocGetName tj = mod)
    (hra : settingsReadFromFile fs pa = .ok (true, ja))
    (hrb : settingsReadFromFile fs pb = .ok (true, jb))
    (hna : settingsGetName ja = a) (hnb : settingsGetName jb = b) :
    resolveOne fs lib mod.toList
      = .ok [⟨dir, pjoin dir (settingsGetDriverScript ja), pjoin mod a⟩,
             ⟨dir, pjoin dir (settingsGetDriverScript jb), pjoin mod b⟩] ∧
    resolveOne fs lib (mod.toList ++ '/' :: a.toList)
      = .ok [⟨dir, pjoin dir (settingsGetDriverScript ja), pjoin mod a⟩] ∧
    resolveOne fs lib (mod.toList ++ '/' :: c.toList)
      = .error (.noConfiguration mod c) := by
  refine ⟨?_, ?_, ?_⟩
  · rw [resolveOne_plain fs lib mod hmod hmodc]
    simp [resolveParsed, hfind, hnos, htocex, htoc, hname, resolveConfigs,
      hra, hrb, hna, hnb]
  · rw [resolveOne_slash fs lib mod a hmod hmodc ha hac]
    simp [resolveParsed, hfind, hnos, htocex, htoc, hname, resolveConfigs,
      hra, hrb, hna, hnb, ha, hab]
  · rw [resolveOne_slash fs lib mod c hmod hmodc hc hcc]
    simp [resolveParsed, hfind, hnos, htocex, htoc, hname, resolveConfigs,
      hc, hca, hcb]

/-- Witness for `run_multi_config_resolution` on the concrete module
`mod` with configurations `alpha` and `beta`. -/
theorem run_multi_config_resolution_witness :
    resolveOne modFS modLib "mod".toList
      = .ok [⟨"/m", pjoin "/m" "ra.sh", pjoin "mod" "alpha"⟩,
             ⟨"/m", pjoin "/m" "rb.sh", pjoin "mod" "beta"⟩] ∧
    resolveOne modFS modLib ("mod".toList ++ '/' :: "alpha".toList)
      = .ok [⟨"/m", pjoin "/m" "ra.sh", pjoin "mod" "alpha"⟩] ∧
    resolveOne modFS modLib ("mod".toList ++ '/' :: "zeta".toList)
      = .error (.noConfiguration "mod" "zeta") :=
  run_multi_config_resolution modFS modLib "mod" "alpha" "beta" "zeta" "/m"
    "/m/sa.json" "/m/sb.json" (exToc "mod" "Mod" ["sa.json", "sb.json"])
    (exSettings "alpha" "Alpha" "ra.sh") (exSettings "beta" "Beta" "rb.sh")
    (by decide) (by decide) (by decide) (by decide) (by decide) (by decide)
    (by decide) (by decide) (by decide) rfl rfl rfl rfl rfl rfl rfl rfl rfl

/-- C2: resolving a single-configuration module `mod` by its bare name
yields exactly one plan entry whose working-directory label is `mod`;
selector `mod/x` with a non-empty configuration is the
single-configuration error, contributing no entry. -/
theorem run_single_config_resolution
    (fs : FS) (lib : CMECLibrary) (mod x dir : String) (j : JValue)
    (hmod : mod ≠ "") (hmodc : mod.toList.all alnumOrUnderscore = true)
    (hx : x ≠ "") (hxc : x.toList.all alnumOrUnderscore = true)
    (hfind : CMECLibrary.find lib mod = some dir)
    (hset : FS.has fs (pjoin dir g_szCMECSettingsName) = true)
    (hread : settingsReadFromFile fs (pjoin dir g_szCMECSettingsName) = .ok (true, j))
    (hname : settingsGetName j = mod) :
    resolveOne fs lib mod.toList
      = .ok [⟨dir, pjoin dir (settingsGetDriverScript j), mod⟩] ∧
    resolveOne fs lib (mod.toList ++ '/' :: x.toList)
      = .error (.singleConfiguration mod) := by
  constructor
  · rw [resolveOne_plain fs lib mod hmod hmodc]
    simp [resolveParsed, hfind, hset, hread, hname]
  · rw [resolveOne_slash fs lib mod x hmod hmodc hx hxc]
    simp [resolveParsed, hfind, hset, hx]

/-- Witness for `run_single_config_resolution` on the concrete module
`demo`. -/
theorem run_single_config_resolution_witness :
    resolveOne demoFS demoLib "demo".toList
      = .ok [⟨"/d", pjoin "/d" "run.sh", "demo"⟩] ∧
    resolveOne demoFS demoLib ("demo".toList ++ '/' :: "x".toList)
      = .error (.singleConfiguration "demo") :=
  run_single_config_resolution demoFS demoLib "demo" "x" "/d"
    (exSettings "demo" "Demo Module" "run.sh")
    (by decide) (by decide) (by decide) (by decide) rfl rfl rfl rfl

/-- C3: `cmec_run` never succeeds as a no-op: when every selector
resolves but the accumulated plan is empty, the run fails with the
no-driver-files-found error, and a successful run always has a
non-empty plan (execution is never reached with an empty plan). -/
theorem run_empty_plan_fails (fs : FS) (lib : CMECLibrary)
    (sels : List (List Char)) :
    (resolveSelectors fs lib sels = .ok [] →
      cmec_run_plan fs lib sels = .error .noDriversFound) ∧
    (∀ (wdir : String) (existing : List String) (keys : List Char) (r : RunResult),
      cmec_run fs lib wdir existing keys sels = .ok r → r.plan ≠ []) := by
  constructor
  · intro h
    simp [cmec_run_plan, h]
  · intro wdir existing keys r hok
    cases hp : cmec_run_plan fs lib sels with
    | error e => rw [cmec_run, hp] at hok; exact absurd hok (by simp)
    | ok plan =>
      have hplan : plan ≠ [] := by
        cases hres : resolveSelectors fs lib sels with
        | error e =>
          simp only [cmec_run_plan, hres] at hp
          exact absurd hp (by simp)
        | ok p2 =>
          simp only [cmec_run_plan, hres] at hp
          by_cases hz : p2.length = 0
          · rw [if_pos hz] at hp
            exact absurd hp (by simp)
          · rw [if_neg hz] at hp
            cases hp
            intro hnil
            rw [hnil] at hz
            exact hz rfl
      simp only [cmec_run, hp] at hok
      cases hcd : createOutputDirs wdir existing keys plan with
      | error e =>
        simp only [hcd] at hok
        exact absurd hok (by simp)
      | ok pr =>
        simp only [hcd] at hok
        cases hok
        exact hplan

/-- Witness for `run_empty_plan_fails`: a library module whose directory
lacks both descriptor files makes its selector resolve to no entries,
and the run fails with the no-driver-files-found error. -/
theorem run_empty_plan_fails_witness :
    resolveSelectors [] ⟨[("ghost", "/g")], [("ghost", "/g")]⟩ ["ghost".toList]
      = .ok [] ∧
    cmec_run_plan [] ⟨[("ghost", "/g")], [("ghost", "/g")]⟩ ["ghost".toList]
      = .error .noDriversFound :=
  ⟨rfl, (run_empty_plan_fails [] ⟨[("ghost", "/g")], [("ghost", "/g")]⟩
    ["ghost".toList]).1 rfl⟩

end CmecDriver
